import Mathlib

/-!
Shallow embedding of the MoneyForward parsing-and-import pipeline
(`scripts/parse_mf.py` and `scripts/import_mf.py` plus the `Transaction`
model of `app/models.py`).

Both scripts read the raw file, strip every line, and scan the resulting
line sequence with a cursor.  File I/O is not modelled: the embedded
parsers take the stripped line sequence (`List String`) directly, which is
what every claim quantifies over.  Python regexes are hand-compiled to
character-list matchers (`re.match` is a prefix match); Python `float` is
modelled for sign/digits/fraction literals (exponents, `inf`/`nan` and
underscore separators never occur in this data and are not modelled);
amounts are rationals.  The SQLite store is modelled as a list of rows and
the importer's SELECT-then-add loop as a fold (SQLAlchemy sessions
autoflush, so a pending add is visible to the next SELECT of the same run).
-/

namespace Expense

/-! ### Python string primitives, modelled over `String.data` -/

/-- Digit value of an ASCII digit character. -/
def dval (c : Char) : Nat := c.toNat - 48

/-- Python `s.replace(old, "")` for a single-character `old`. -/
def removeChar (c : Char) (s : String) : String :=
  ⟨s.data.filter (fun x => x ≠ c)⟩

/-- Python `s.strip()`: whitespace removed from both ends. -/
def pyStrip (s : String) : String :=
  ⟨((s.data.dropWhile Char.isWhitespace).reverse.dropWhile Char.isWhitespace).reverse⟩

/-- Python `s.split("\t")`: split at every tab, keeping empty fields. -/
def splitTabAux : List Char → List Char → List String
  | [], cur => [⟨cur.reverse⟩]
  | '\t' :: rest, cur => (⟨cur.reverse⟩ : String) :: splitTabAux rest []
  | c :: rest, cur => splitTabAux rest (c :: cur)

/-- Python `s.split("\t")`. -/
def splitTab (s : String) : List String := splitTabAux s.data []

/-- Python `s.startswith("-")`. -/
def startsDash (s : String) : Bool :=
  match s.data with
  | '-' :: _ => true
  | _ => false

/-- Python `s.isdigit()` (ASCII digits; the inputs at issue are ASCII). -/
def pyIsDigit (s : String) : Bool :=
  !s.data.isEmpty && s.data.all Char.isDigit

/-- Whether `needle` is a prefix of `hay` (character lists). -/
def listStarts : List Char → List Char → Bool
  | [], _ => true
  | _ :: _, [] => false
  | a :: as, b :: bs => a == b && listStarts as bs

/-- Whether `needle` occurs as a contiguous substring of `hay` (character lists). -/
def listHasSub (needle : List Char) : List Char → Bool
  | [] => needle.isEmpty
  | b :: bs => listStarts needle (b :: bs) || listHasSub needle bs

/-- Python `needle in hay` on strings. -/
def strHasSub (hay needle : String) : Bool := listHasSub needle.data hay.data

/-! ### Hand-compiled regex matchers (`re.match` = prefix match) -/

/-- Consume exactly four digits (`\d{4}`), returning their value. -/
def match4 : List Char → Option (Nat × List Char)
  | a :: b :: c :: d :: rest =>
    if a.isDigit && b.isDigit && c.isDigit && d.isDigit then
      some (((dval a * 10 + dval b) * 10 + dval c) * 10 + dval d, rest)
    else none
  | _ => none

/-- Consume `\d{1,2}` greedily.  Every use site follows it with a
non-digit literal (possibly after `\s*`), so the greedy take is exactly
the regex backtracking semantics; at pattern end only success matters. -/
def match12 : List Char → Option (Nat × List Char)
  | a :: rest =>
    if a.isDigit then
      match rest with
      | b :: rest2 => if b.isDigit then some (dval a * 10 + dval b, rest2) else some (dval a, rest)
      | [] => some (dval a, [])
    else none
  | [] => none

/-- Consume one expected literal character. -/
def expectChar (c : Char) : List Char → Option (List Char)
  | x :: rest => if x == c then some rest else none
  | [] => none

/-- Whitespace skip, `\s*`. -/
def skipWs (cs : List Char) : List Char := cs.dropWhile Char.isWhitespace

/-- Matcher for `import_mf.py` line 34, `re.match(r"(\d{4})/\d{1,2}/\d{1,2}\s*-\s*(\d{4})/\d{1,2}/\d{1,2}", line)`:
returns the first year on a match. -/
def headerImport (s : String) : Option Nat := do
  let (y, r1) ← match4 s.data
  let r2 ← expectChar '/' r1
  let (_, r3) ← match12 r2
  let r4 ← expectChar '/' r3
  let (_, r5) ← match12 r4
  let r6 ← expectChar '-' (skipWs r5)
  let (_, r8) ← match4 (skipWs r6)
  let r9 ← expectChar '/' r8
  let (_, r10) ← match12 r9
  let r11 ← expectChar '/' r10
  let (_, _) ← match12 r11
  some y

/-- Matcher for `import_mf.py` line 40, `re.match(r"(\d{1,2})/(\d{1,2})\(.\)", line)`:
month and day on a match (`.` is any character except newline). -/
def markerImport (s : String) : Option (Nat × Nat) := do
  let (m, r1) ← match12 s.data
  let r2 ← expectChar '/' r1
  let (d, r3) ← match12 r2
  let r4 ← expectChar '(' r3
  match r4 with
  | c :: r5 => if c = '\n' then none else (expectChar ')' r5).map (fun _ => (m, d))
  | [] => none

/-- Matcher for `import_mf.py` line 68, `re.match(r"\d{4}/\d{1,2}/\d{1,2}", next_line)`
(the detail-boundary header check has no trailing dash). -/
def dateHeaderStart (s : String) : Bool :=
  (do
    let (_, r1) ← match4 s.data
    let r2 ← expectChar '/' r1
    let (_, r3) ← match12 r2
    let r4 ← expectChar '/' r3
    let (_, _) ← match12 r4
    some ()).isSome

/-- Weekday set of the `parse_mf.py` marker regex `re.match(r"(\d{1,2})/(\d{1,2})\([月火水木金土日]\)", line)`. -/
def isWeekdayKanji (c : Char) : Bool :=
  c == '月' || c == '火' || c == '水' || c == '木' || c == '金' || c == '土' || c == '日'

/-- Matcher for the `parse_mf.py` transaction-date marker (weekday restricted to the kanji set). -/
def markerMF (s : String) : Option (Nat × Nat) := do
  let (m, r1) ← match12 s.data
  let r2 ← expectChar '/' r1
  let (d, r3) ← match12 r2
  let r4 ← expectChar '(' r3
  match r4 with
  | c :: r5 => if isWeekdayKanji c then (expectChar ')' r5).map (fun _ => (m, d)) else none
  | [] => none

/-- Matcher for the `parse_mf.py` range header `re.match(r"\d{4}/\d{1,2}/\d{1,2}\s*-", line)`. -/
def headerMF (s : String) : Bool :=
  (do
    let (_, r1) ← match4 s.data
    let r2 ← expectChar '/' r1
    let (_, r3) ← match12 r2
    let r4 ← expectChar '/' r3
    let (_, r5) ← match12 r4
    let _ ← expectChar '-' (skipWs r5)
    some ()).isSome

/-- Year capture of `parse_mf.py` line 22, `re.match(r"(\d{4})", line).group(1)` as a string:
the first four characters (digits whenever `headerMF` matched). -/
def year4Str (s : String) : String := ⟨s.data.take 4⟩

/-! ### Python `float` on this data, and the amount parsers -/

/-- Value of a digit run. -/
def digitsVal (ds : List Char) : Nat := ds.foldl (fun acc c => acc * 10 + dval c) 0

/-- Python `float(s)` restricted to sign/digits/fraction literals
(`-450`, `+4.5`, `.5`, `5.`); exponents, `inf`/`nan` and underscore
separators do not occur in this pipeline's data and are not modelled.
`none` models the `ValueError` the scripts catch. -/
def parseFloat (s : String) : Option Rat :=
  let cs := (pyStrip s).data
  let (neg, cs2) :=
    match cs with
    | '-' :: rest => (true, rest)
    | '+' :: rest => (false, rest)
    | _ => (false, cs)
  let intPart := cs2.takeWhile Char.isDigit
  let rest := cs2.dropWhile Char.isDigit
  match rest with
  | [] =>
    if intPart.isEmpty then none
    else some (if neg then -(digitsVal intPart : Rat) else (digitsVal intPart : Rat))
  | '.' :: frac =>
    if frac.all Char.isDigit && !(intPart.isEmpty && frac.isEmpty) then
      let v : Rat := (digitsVal intPart : Rat) + (digitsVal frac : Rat) / ((10 : Rat) ^ frac.length)
      some (if neg then -v else v)
    else none
  | _ => none

/-- Model of `import_mf.py` `parse_amount`: strip commas and the yen glyph, strip
whitespace, then `float`. -/
def parse_amount (s : String) : Option Rat :=
  parseFloat (pyStrip (removeChar '円' (removeChar ',' s)))

/-- Model of the `import_mf.py` line 53 shape check `re.match(r"^-?[\d,]+$", s)`
(applied to the amount string with `円` already removed). -/
def amountShape (s : String) : Bool :=
  let cs :=
    match s.data with
    | '-' :: rest => rest
    | cs => cs
  !cs.isEmpty && cs.all (fun c => c.isDigit || c == ',')

/-! ### The importer's parser (`import_mf.py` `main`, lines 26–105) -/

/-- A calendar date as the `datetime(year, month, day)` value built at
`import_mf.py` line 45. -/
structure MDate where
  year : Nat
  month : Nat
  day : Nat
deriving DecidableEq

/-- The `Transaction` row of `app/models.py` as built by the importer
(surrogate id and created-at timestamp omitted: they never enter the
natural key or any claim). -/
structure TxI where
  date : MDate
  description : String
  amount : Rat
  source : String
  category : String
  currency : String := "JPY"
deriving DecidableEq

/-- Gregorian leap year, as `datetime` uses. -/
def isLeap (y : Nat) : Bool := (y % 4 == 0 && y % 100 != 0) || y % 400 == 0

/-- Days in a month, as `datetime` uses. -/
def daysInMonth (y m : Nat) : Nat :=
  if m = 2 then (if isLeap y then 29 else 28)
  else if m = 4 ∨ m = 6 ∨ m = 9 ∨ m = 11 then 30
  else 31

/-- Validity of `datetime(y, m, d)`: it succeeds exactly on these arguments; outside them
it raises `ValueError`. -/
def validDate (y m d : Nat) : Bool :=
  1 ≤ y && y ≤ 9999 && 1 ≤ m && m ≤ 12 && 1 ≤ d && d ≤ daysInMonth y m

/-- The `ValueError` that escapes from `datetime(...)` at
`import_mf.py` line 45 (nothing catches it). -/
inductive PErr where
  | invalidDate (y m d : Nat)
deriving DecidableEq

/-- Model of `import_mf.py` line 78, `"(振替)" in d`: substring containment. -/
def isTransferLine (d : String) : Bool := strHasSub d "(振替)"

/-- The running `(source, category)` pair of the detail loop at
`import_mf.py` lines 73–86. -/
structure Heur where
  source : String
  category : String
deriving DecidableEq

/-- The `len(parts) >= 2` arm of the detail loop (`import_mf.py`
lines 81–86): field 0 stripped is source, field 1 stripped is category,
a non-empty stripped field 2 is appended as " / " subcategory. -/
def extractHeur (d : String) : Heur :=
  let parts := splitTab d
  let src := pyStrip (parts.getD 0 "")
  let cat := pyStrip (parts.getD 1 "")
  let cat :=
    if 2 < parts.length ∧ pyStrip (parts.getD 2 "") ≠ "" then
      cat ++ " / " ++ pyStrip (parts.getD 2 "")
    else cat
  ⟨src, cat⟩

/-- Python `len(d.split("\t")) >= 2`: the detail line carries at least two
tab-separated fields. -/
def isMultiField (d : String) : Bool := 2 ≤ (splitTab d).length

/-- One detail line of the loop at `import_mf.py` lines 77–86: a line
with two or more tab-separated fields overwrites source and category
(so the LAST such line wins); any other line leaves them unchanged. -/
def heurStep (st : Heur) (d : String) : Heur :=
  if isMultiField d then extractHeur d else st

/-- Model of `import_mf.py` lines 73–92: the full detail heuristics, including the
transfer rescue of lines 88–92. -/
def heurImport (details : List String) : Heur :=
  let base := details.foldl heurStep ⟨"Unknown", "Uncategorized"⟩
  if details.any isTransferLine ∧ base.category = "Uncategorized" then
    let nt := details.filter (fun d => !isTransferLine d && d ≠ "未設定")
    { source := match nt with | [] => base.source | x :: _ => x
      category := "振替" }
  else base

/-- Detail-boundary check of `import_mf.py` lines 67–68: a transaction
date marker or a `\d{4}/\d{1,2}/\d{1,2}` header start. -/
def isBoundaryImport (s : String) : Bool :=
  (markerImport s).isSome || dateHeaderStart s

/-- The detail-collecting inner `while` of `import_mf.py` lines 63–71,
run on the suffix starting right after the amount line: returns the
collected detail lines and how many lines were consumed. -/
def collectFrom : List String → List String × Nat
  | [] => ([], 0)
  | l :: rest =>
    if isBoundaryImport l then ([], 0)
    else
      let dn := collectFrom rest
      (l :: dn.1, dn.2 + 1)

/-- The scanning `while` of `import_mf.py` lines 30–105, with explicit
fuel (the cursor strictly increases, so `lines.length + 1` fuel is always
enough; see the fuel-irrelevance theorem).  An uncaught `ValueError` from
`datetime(...)` is the `.error` case; `break` and normal exit return the
transactions collected so far. -/
def loopI (lines : List String) : Nat → Nat → Nat → List TxI → Except PErr (List TxI)
  | 0, _, _, acc => .ok acc
  | fuel + 1, i, year, acc =>
    if i < lines.length then
      let line := lines.getD i ""
      match headerImport line with
      | some y => loopI lines fuel (i + 1) y acc
      | none =>
        match markerImport line with
        | some (m, d) =>
          if validDate year m d then
            if lines.length ≤ i + 2 then .ok acc
            else
              let desc := lines.getD (i + 1) ""
              let amountStr := lines.getD (i + 2) ""
              if amountShape (removeChar '円' amountStr) then
                match parse_amount amountStr with
                | some a =>
                  let dn := collectFrom (lines.drop (i + 3))
                  let hr := heurImport dn.1
                  loopI lines fuel (i + 3 + dn.2) year
                    (acc ++ [{ date := ⟨year, m, d⟩, description := desc, amount := a,
                               source := hr.source, category := hr.category }])
                | none => loopI lines fuel (i + 1) year acc
              else loopI lines fuel (i + 1) year acc
          else .error (.invalidDate year m d)
        | none => loopI lines fuel (i + 1) year acc
    else .ok acc

/-- Entry point of the `import_mf.py` parsing pass: cursor 0, `current_year = 2025`. -/
def importParse (lines : List String) : Except PErr (List TxI) :=
  loopI lines (lines.length + 1) 0 2025 []

/-! ### The importer's dedup loop (`import_mf.py` lines 109–126) -/

/-- The natural key `(date, description, amount, source)` of the SELECT
at `import_mf.py` lines 112–119. -/
def txKey (t : TxI) : MDate × String × Rat × String :=
  (t.date, t.description, t.amount, t.source)

/-- The SELECT: does any stored row match the candidate on all four
natural-key fields? -/
def hasKeyOf (store : List TxI) (t : TxI) : Bool :=
  store.any (fun r => decide (txKey r = txKey t))

/-- The session loop of `import_mf.py` lines 110–123: for each parsed
transaction in order, insert it unless a row with the same natural key is
already visible, and count the inserts.  (SQLAlchemy sessions autoflush,
so rows added earlier in the same run are visible to later SELECTs.) -/
def insertAll (store : List TxI) : List TxI → List TxI × Nat
  | [] => (store, 0)
  | tx :: rest =>
    if hasKeyOf store tx then insertAll store rest
    else ((insertAll (store ++ [tx]) rest).1, (insertAll (store ++ [tx]) rest).2 + 1)

/-! ### The CSV exporter's parser (`parse_mf.py` `parse_mf_raw`) -/

/-- The record dict built at `parse_mf.py` lines 82–89 (the date is the
formatted string, the year having been captured as a string). -/
structure TxMF where
  date : String
  description : String
  amount : Rat
  category : String
  source : String
  currency : String
deriving DecidableEq

/-- Python `f"{n:02d}"` for the month/day fields (both < 100 here). -/
def pad2 (n : Nat) : String := if n < 10 then "0" ++ toString n else toString n

/-- The date string `f"{current_year}-{month:02d}-{day:02d}"` of
`parse_mf.py` line 33. -/
def mkDateStr (y : String) (m d : Nat) : String :=
  y ++ "-" ++ pad2 m ++ "-" ++ pad2 d

/-- Python `potential_source.replace(",", "").replace("-", "").isdigit()`
(`parse_mf.py` line 78). -/
def strippedIsDigit (s : String) : Bool :=
  pyIsDigit (removeChar '-' (removeChar ',' s))

/-- Result of the detail scan of `parse_mf.py` lines 54–80: the category,
subcategory, source and the cursor position it leaves behind. -/
structure DetMF where
  category : String
  subcategory : String
  source : String
  next : Nat
deriving DecidableEq

/-- Model of `parse_mf.py` lines 63–80, after the optional transfer marker was
handled (`category` is `"振替"` or `"未分類"` accordingly): either one
tab-separated line with three or more fields (source/category/subcategory),
or one single-field line that is not a marker/header (taken as source,
with an optional second line overriding it when that line is not a
marker/header, does not start with `-`, and is not digits after stripping
commas and hyphens). -/
def detailsMFCore (lines : List String) (category : String) (k : Nat) : DetMF :=
  if k < lines.length then
    let l := lines.getD k ""
    let parts := splitTab l
    if 3 ≤ parts.length then
      ⟨parts.getD 1 "", parts.getD 2 "", parts.getD 0 "", k + 1⟩
    else if parts.length = 1 ∧ (markerMF l).isNone ∧ headerMF l = false then
      if k + 1 < lines.length ∧ (markerMF (lines.getD (k + 1) "")).isNone
          ∧ headerMF (lines.getD (k + 1) "") = false then
        let p := lines.getD (k + 1) ""
        if startsDash p = false ∧ strippedIsDigit p = false then
          ⟨category, "未分類", p, k + 2⟩
        else ⟨category, "未分類", parts.getD 0 "", k + 1⟩
      else ⟨category, "未分類", parts.getD 0 "", k + 1⟩
    else ⟨category, "未分類", "未設定", k⟩
  else ⟨category, "未分類", "未設定", k⟩

/-- Model of `parse_mf.py` lines 54–80: the `(振替)` check of lines 59–61 followed
by the source/category scan. -/
def detailsMF (lines : List String) (k0 : Nat) : DetMF :=
  if k0 < lines.length ∧ lines.getD k0 "" = "(振替)" then
    detailsMFCore lines "振替" (k0 + 1)
  else detailsMFCore lines "未分類" k0

/-- The scanning `while` of `parse_mf.py` lines 17–91, with explicit fuel
(`lines.length + 1` is always enough).  `current_year` is `None` until a
range header is seen; a marker with no year in scope falls through to the
plain `i += 1` branch. -/
def loopMF (lines : List String) : Nat → Nat → Option String → List TxMF → List TxMF
  | 0, _, _, acc => acc
  | fuel + 1, i, year, acc =>
    if i < lines.length then
      let line := lines.getD i ""
      if headerMF line then loopMF lines fuel (i + 1) (some (year4Str line)) acc
      else
        match markerMF line, year with
        | some (m, d), some y =>
          if lines.length ≤ i + 1 then acc
          else
            let desc := lines.getD (i + 1) ""
            if lines.length ≤ i + 2 then acc
            else
              match parseFloat (removeChar ',' (lines.getD (i + 2) "")) with
              | none => loopMF lines fuel (i + 3) year acc
              | some a =>
                let det := detailsMF lines (i + 3)
                let cat :=
                  if det.subcategory ≠ "未分類" then det.category ++ " / " ++ det.subcategory
                  else det.category
                loopMF lines fuel det.next year
                  (acc ++ [⟨mkDateStr y m d, desc, a, cat, det.source, "JPY"⟩])
        | _, _ => loopMF lines fuel (i + 1) year acc
    else acc

/-- Model of `parse_mf.py` `parse_mf_raw` on the stripped line sequence. -/
def parseMF (lines : List String) : List TxMF :=
  loopMF lines (lines.length + 1) 0 none []

/-! ### Concrete rows used to instantiate the general theorems -/

/-- The scenario-1 record as the importer builds it. -/
def sampleA : TxI :=
  { date := ⟨2025, 12, 26⟩, description := "Coffee Shop", amount := -450,
    source := "Bank A", category := "外食 / Cafe" }

/-- The scenario-3 Lunch record as the importer builds it. -/
def sampleB : TxI :=
  { date := ⟨2025, 12, 29⟩, description := "Lunch", amount := -800,
    source := "Unknown", category := "Uncategorized" }

/-! ### Lemmas about the dedup importer -/

theorem hasKeyOf_iff (store : List TxI) (t : TxI) :
    hasKeyOf store t = true ↔ ∃ r ∈ store, txKey r = txKey t := by
  simp [hasKeyOf, List.any_eq_true]

theorem insertAll_mem (txs : List TxI) :
    ∀ store r, r ∈ store → r ∈ (insertAll store txs).1 := by
  induction txs with
  | nil => intro store r h; simpa [insertAll] using h
  | cons tx rest ih =>
    intro store r h
    by_cases hk : hasKeyOf store tx = true
    · simpa [insertAll, hk] using ih store r h
    · simpa [insertAll, hk] using ih (store ++ [tx]) r (List.mem_append_left _ h)

theorem insertAll_finds (txs : List TxI) :
    ∀ store t, t ∈ txs → ∃ r ∈ (insertAll store txs).1, txKey r = txKey t := by
  induction txs with
  | nil => intro store t h; cases h
  | cons tx rest ih =>
    intro store t ht
    rcases List.mem_cons.mp ht with rfl | hmem
    · by_cases hk : hasKeyOf store t = true
      · obtain ⟨r, hr, hkey⟩ := (hasKeyOf_iff store t).mp hk
        exact ⟨r, by simpa [insertAll, hk] using insertAll_mem rest store r hr, hkey⟩
      · refine ⟨t, ?_, rfl⟩
        simpa [insertAll, hk] using
          insertAll_mem rest (store ++ [t]) t (List.mem_append_right _ (List.mem_singleton.mpr rfl))
    · by_cases hk : hasKeyOf store tx = true
      · simpa [insertAll, hk] using ih store t hmem
      · simpa [insertAll, hk] using ih (store ++ [tx]) t hmem

theorem insertAll_all_found (txs : List TxI) :
    ∀ store, (∀ t ∈ txs, ∃ r ∈ store, txKey r = txKey t) →
      insertAll store txs = (store, 0) := by
  induction txs with
  | nil => intro store _; rfl
  | cons tx rest ih =>
    intro store h
    have hk : hasKeyOf store tx = true :=
      (hasKeyOf_iff store tx).mpr (h tx (List.mem_cons_self tx rest))
    simpa [insertAll, hk] using ih store (fun t ht => h t (List.mem_cons_of_mem tx ht))

theorem insertAll_pairwise (txs : List TxI) :
    ∀ store, store.Pairwise (fun a b => txKey a ≠ txKey b) →
      (insertAll store txs).1.Pairwise (fun a b => txKey a ≠ txKey b) := by
  induction txs with
  | nil => intro store h; simpa [insertAll] using h
  | cons tx rest ih =>
    intro store h
    by_cases hk : hasKeyOf store tx = true
    · simpa [insertAll, hk] using ih store h
    · have hnomatch : ∀ r ∈ store, txKey r ≠ txKey tx := by
        intro r hr heq
        exact hk ((hasKeyOf_iff store tx).mpr ⟨r, hr, heq⟩)
      have happ : (store ++ [tx]).Pairwise (fun a b => txKey a ≠ txKey b) := by
        refine List.pairwise_append.mpr ⟨h, List.pairwise_singleton _ _, ?_⟩
        intro a ha b hb
        rw [List.mem_singleton.mp hb]
        exact hnomatch a ha
      simpa [insertAll, hk] using ih (store ++ [tx]) happ

/-- C1: For every persisted store and every raw input file, running the
importer a second time on the same unchanged input after a first
successful run inserts zero new records and leaves the persisted
collection of transactions exactly as it was after the first run.  (The
parsed sequence of an unchanged input is unchanged, so the second run
re-imports the very same `txs`.) -/
theorem c1_reimport_inserts_nothing (store txs : List TxI) :
    insertAll (insertAll store txs).1 txs = ((insertAll store txs).1, 0) :=
  insertAll_all_found txs _ (fun t ht => insertAll_finds txs store t ht)

/-- C2: For every parsed record, the importer inserts a new persisted row
if and only if no existing persisted row matches it exactly on all four
natural-key fields `(date, description, amount, source)`; when a match
exists the record is skipped and nothing is written for it.  Consequently
the importer preserves the uniqueness invariant: no two persisted records
share an identical natural key. -/
theorem c2_insert_iff_no_key_match (store : List TxI) (tx : TxI) (rest txs : List TxI) :
    ((∃ r ∈ store, txKey r = txKey tx) → insertAll store (tx :: rest) = insertAll store rest)
    ∧ (¬ (∃ r ∈ store, txKey r = txKey tx) →
        insertAll store (tx :: rest)
          = ((insertAll (store ++ [tx]) rest).1, (insertAll (store ++ [tx]) rest).2 + 1))
    ∧ (store.Pairwise (fun a b => txKey a ≠ txKey b) →
        (insertAll store txs).1.Pairwise (fun a b => txKey a ≠ txKey b)) := by
  refine ⟨?_, ?_, insertAll_pairwise txs store⟩
  · intro h
    have hk : hasKeyOf store tx = true := (hasKeyOf_iff store tx).mpr h
    simp [insertAll, hk]
  · intro h
    have hk : ¬ hasKeyOf store tx = true := fun hc => h ((hasKeyOf_iff store tx).mp hc)
    simp [insertAll, hk]

/-- Witness for C2 at concrete rows: inserting a genuinely new record
appends it and counts it, and the result of importing both samples into
an empty store has pairwise-distinct natural keys. -/
theorem c2_insert_iff_no_key_match_witness :
    insertAll [sampleA] [sampleB] = ([sampleA, sampleB], 1)
    ∧ (insertAll [] [sampleA, sampleB]).1.Pairwise (fun a b => txKey a ≠ txKey b) := by
  constructor
  · have h := (c2_insert_iff_no_key_match [sampleA] sampleB [] []).2.1 (by decide)
    simpa [insertAll] using h
  · exact (c2_insert_iff_no_key_match [] sampleA [] [sampleA, sampleB]).2.2 List.Pairwise.nil

/-! ### Fuel irrelevance: both scanning loops finish within one pass -/

theorem loopI_exit (lines : List String) (fuel i year : Nat) (acc : List TxI)
    (h : lines.length ≤ i) : loopI lines fuel i year acc = .ok acc := by
  cases fuel with
  | zero => rfl
  | succ f => simp [loopI, Nat.not_lt.mpr h]

theorem loopI_mono (lines : List String) :
    ∀ d i year acc f f', lines.length - i ≤ d → lines.length - i ≤ f →
      lines.length - i ≤ f' → loopI lines f i year acc = loopI lines f' i year acc := by
  intro d
  induction d with
  | zero =>
    intro i year acc f f' hd _ _
    have hi : lines.length ≤ i := by omega
    rw [loopI_exit lines f i year acc hi, loopI_exit lines f' i year acc hi]
  | succ d ih =>
    intro i year acc f f' hd hf hf'
    by_cases hi : lines.length ≤ i
    · rw [loopI_exit lines f i year acc hi, loopI_exit lines f' i year acc hi]
    · have hlt : i < lines.length := by omega
      obtain ⟨a, rfl⟩ : ∃ a, f = a + 1 := ⟨f - 1, by omega⟩
      obtain ⟨b, rfl⟩ : ∃ b, f' = b + 1 := ⟨f' - 1, by omega⟩
      simp only [loopI, if_pos hlt]
      cases hh : headerImport (lines.getD i "") with
      | some y => exact ih (i + 1) y acc a b (by omega) (by omega) (by omega)
      | none =>
        cases hm : markerImport (lines.getD i "") with
        | none => exact ih (i + 1) year acc a b (by omega) (by omega) (by omega)
        | some md =>
          obtain ⟨m, dd⟩ := md
          by_cases hv : validDate year m dd = true
          · simp only [if_pos hv]
            by_cases h2 : lines.length ≤ i + 2
            · simp only [if_pos h2]
            · simp only [if_neg h2]
              by_cases hs : amountShape (removeChar '円' (lines.getD (i + 2) "")) = true
              · simp only [if_pos hs]
                cases hp : parse_amount (lines.getD (i + 2) "") with
                | none => exact ih (i + 1) year acc a b (by omega) (by omega) (by omega)
                | some amt =>
                  exact ih (i + 3 + (collectFrom (lines.drop (i + 3))).2) year _ a b
                    (by omega) (by omega) (by omega)
              · simp only [if_neg hs]
                exact ih (i + 1) year acc a b (by omega) (by omega) (by omega)
          · simp only [if_neg hv]

theorem loopMF_exit (lines : List String) (fuel i : Nat) (year : Option String)
    (acc : List TxMF) (h : lines.length ≤ i) : loopMF lines fuel i year acc = acc := by
  cases fuel with
  | zero => rfl
  | succ f => simp [loopMF, Nat.not_lt.mpr h]

theorem detailsMFCore_next_ge (lines : List String) (category : String) (k : Nat) :
    k ≤ (detailsMFCore lines category k).next := by
  unfold detailsMFCore
  dsimp only
  split_ifs <;> dsimp only <;> omega

theorem detailsMF_next_ge (lines : List String) (k0 : Nat) :
    k0 ≤ (detailsMF lines k0).next := by
  unfold detailsMF
  split_ifs with h
  · have := detailsMFCore_next_ge lines "振替" (k0 + 1); omega
  · exact detailsMFCore_next_ge lines "未分類" k0

theorem loopMF_mono (lines : List String) :
    ∀ d i year acc f f', lines.length - i ≤ d → lines.length - i ≤ f →
      lines.length - i ≤ f' → loopMF lines f i year acc = loopMF lines f' i year acc := by
  intro d
  induction d with
  | zero =>
    intro i year acc f f' hd _ _
    have hi : lines.length ≤ i := by omega
    rw [loopMF_exit lines f i year acc hi, loopMF_exit lines f' i year acc hi]
  | succ d ih =>
    intro i year acc f f' hd hf hf'
    by_cases hi : lines.length ≤ i
    · rw [loopMF_exit lines f i year acc hi, loopMF_exit lines f' i year acc hi]
    · have hlt : i < lines.length := by omega
      obtain ⟨a, rfl⟩ : ∃ a, f = a + 1 := ⟨f - 1, by omega⟩
      obtain ⟨b, rfl⟩ : ∃ b, f' = b + 1 := ⟨f' - 1, by omega⟩
      simp only [loopMF, if_pos hlt]
      by_cases hh : headerMF (lines.getD i "") = true
      · simp only [if_pos hh]
        exact ih (i + 1) _ acc a b (by omega) (by omega) (by omega)
      · simp only [if_neg hh]
        cases hm : markerMF (lines.getD i "") with
        | none =>
          cases year with
          | none => exact ih (i + 1) none acc a b (by omega) (by omega) (by omega)
          | some y => exact ih (i + 1) (some y) acc a b (by omega) (by omega) (by omega)
        | some md =>
          obtain ⟨m, dd⟩ := md
          cases year with
          | none => exact ih (i + 1) none acc a b (by omega) (by omega) (by omega)
          | some y =>
            by_cases h1 : lines.length ≤ i + 1
            · simp only [if_pos h1]
            · simp only [if_neg h1]
              by_cases h2 : lines.length ≤ i + 2
              · simp only [if_pos h2]
              · simp only [if_neg h2]
                cases hp : parseFloat (removeChar ',' (lines.getD (i + 2) "")) with
                | none =>
                  exact ih (i + 3) (some y) acc a b (by omega) (by omega) (by omega)
                | some amt =>
                  have hnext := detailsMF_next_ge lines (i + 3)
                  exact ih (detailsMF lines (i + 3)).next (some y) _ a b
                    (by omega) (by omega) (by omega)

/-- C10: For every finite input line sequence (including adversarial
ones), both scanning loops terminate within a single pass: the cursor
strictly increases every iteration, so `lines.length + 1` iterations of
fuel always suffice and adding any amount of further fuel never changes
the result of either parser. -/
theorem c10_scan_single_pass :
    (∀ (lines : List String) (extra : Nat),
        loopI lines (lines.length + 1 + extra) 0 2025 [] = importParse lines)
    ∧ (∀ (lines : List String) (extra : Nat),
        loopMF lines (lines.length + 1 + extra) 0 none [] = parseMF lines) := by
  constructor
  · intro lines extra
    exact loopI_mono lines lines.length 0 2025 [] (lines.length + 1 + extra)
      (lines.length + 1) (by omega) (by omega) (by omega)
  · intro lines extra
    exact loopMF_mono lines lines.length 0 none [] (lines.length + 1 + extra)
      (lines.length + 1) (by omega) (by omega) (by omega)

/-! ### Invariants of the importer's parser -/

theorem loopI_valid (lines : List String) :
    ∀ fuel i year acc txs,
      (∀ tx ∈ acc, validDate tx.date.year tx.date.month tx.date.day = true) →
      loopI lines fuel i year acc = .ok txs →
      ∀ tx ∈ txs, validDate tx.date.year tx.date.month tx.date.day = true := by
  intro fuel
  induction fuel with
  | zero =>
    intro i year acc txs hacc heq
    cases heq
    exact hacc
  | succ f ih =>
    intro i year acc txs hacc heq
    by_cases hlt : i < lines.length
    · rw [loopI] at heq
      simp only [if_pos hlt] at heq
      cases hh : headerImport (lines.getD i "") with
      | some y =>
        rw [hh] at heq
        dsimp only at heq
        exact ih (i + 1) y acc txs hacc heq
      | none =>
        rw [hh] at heq
        dsimp only at heq
        cases hm : markerImport (lines.getD i "") with
        | none =>
          rw [hm] at heq
          dsimp only at heq
          exact ih (i + 1) year acc txs hacc heq
        | some md =>
          obtain ⟨m, dd⟩ := md
          rw [hm] at heq
          dsimp only at heq
          by_cases hv : validDate year m dd = true
          · rw [if_pos hv] at heq
            by_cases h2 : lines.length ≤ i + 2
            · rw [if_pos h2] at heq
              cases heq
              exact hacc
            · rw [if_neg h2] at heq
              by_cases hs : amountShape (removeChar '円' (lines.getD (i + 2) "")) = true
              · rw [if_pos hs] at heq
                cases hp : parse_amount (lines.getD (i + 2) "") with
                | none =>
                  rw [hp] at heq
                  exact ih (i + 1) year acc txs hacc heq
                | some amt =>
                  rw [hp] at heq
                  refine ih _ year _ txs ?_ heq
                  intro tx htx
                  rcases List.mem_append.mp htx with h | h
                  · exact hacc tx h
                  · rw [List.mem_singleton.mp h]
                    exact hv
              · rw [if_neg hs] at heq
                exact ih (i + 1) year acc txs hacc heq
          · rw [if_neg hv] at heq
            cases heq
    · rw [loopI_exit lines (f + 1) i year acc (by omega)] at heq
      cases heq
      exact hacc

/-! ### `parse_mf.py` emits nothing while no range header has been seen -/

theorem loopMF_no_year (lines : List String) (hno : ∀ l ∈ lines, headerMF l = false) :
    ∀ fuel i acc, loopMF lines fuel i none acc = acc := by
  intro fuel
  induction fuel with
  | zero => intro i acc; rfl
  | succ f ih =>
    intro i acc
    by_cases hlt : i < lines.length
    · rw [loopMF, if_pos hlt]
      have hmem : lines.getD i "" ∈ lines := by
        rw [List.getD_eq_getElem lines "" hlt]
        exact List.getElem_mem hlt
      rw [if_neg (by rw [hno _ hmem]; exact Bool.false_ne_true)]
      cases hm : markerMF (lines.getD i "") with
      | none => exact ih (i + 1) acc
      | some md => obtain ⟨m, dd⟩ := md; exact ih (i + 1) acc
    · exact loopMF_exit lines (f + 1) i none acc (by omega)

/-! ### The importer's detail fold: the last multi-field line wins -/

theorem foldl_heurStep_id (details : List String) :
    ∀ init, (∀ x ∈ details, isMultiField x = false) →
      details.foldl heurStep init = init := by
  induction details with
  | nil => intro init _; rfl
  | cons x rest ih =>
    intro init h
    have hx : isMultiField x = false := h x (List.mem_cons_self x rest)
    have hstep : heurStep init x = init := by
      unfold heurStep
      rw [if_neg (by rw [hx]; exact Bool.false_ne_true)]
    rw [List.foldl_cons, hstep]
    exact ih init (fun y hy => h y (List.mem_cons_of_mem x hy))

theorem foldl_heurStep_last (details : List String) :
    ∀ init d, (details.filter isMultiField).getLast? = some d →
      details.foldl heurStep init = extractHeur d := by
  induction details with
  | nil => intro init d h; simp at h
  | cons x rest ih =>
    intro init d h
    by_cases hx : isMultiField x = true
    · rw [List.filter_cons_of_pos hx] at h
      have hstep : heurStep init x = extractHeur x := by
        unfold heurStep
        rw [if_pos hx]
      rw [List.foldl_cons, hstep]
      cases hrest : rest.filter isMultiField with
      | nil =>
        rw [hrest] at h
        have hd : d = x := (by simpa using h : x = d).symm
        subst hd
        exact foldl_heurStep_id rest (extractHeur d)
          (fun y hy => by
            by_contra hc
            have : y ∈ rest.filter isMultiField :=
              List.mem_filter.mpr ⟨hy, by revert hc; cases isMultiField y <;> simp⟩
            rw [hrest] at this
            cases this)
      | cons z zs =>
        have h' : (rest.filter isMultiField).getLast? = some d := by
          rw [hrest] at h ⊢
          rwa [List.getLast?_cons_cons] at h
        exact ih (extractHeur x) d h'
    · rw [List.filter_cons_of_neg (by revert hx; cases isMultiField x <;> simp)] at h
      have hstep : heurStep init x = init := by
        unfold heurStep
        rw [if_neg hx]
      rw [List.foldl_cons, hstep]
      exact ih init d h

/-! ### Claim theorems -/

/-- C3: the claim says no exception escapes the per-line/per-block logic
and a date marker whose month/day is not a valid calendar date drops the
block.  The importer instead calls `datetime(2025, 2, 30)` at
`import_mf.py` line 45 with no try/except, so the `ValueError` escapes
and the whole run crashes on the single line `2/30(月)` — before the
length guard, so even a one-line input dies.  The amount parse right
below is guarded twice, which shows the drop-not-crash intent the spec
records; the date constructor was simply left unguarded. -/
theorem c3_invalid_date_raises :
    importParse ["2/30(月)"] = .error (.invalidDate 2025 2 30)
    ∧ validDate 2025 2 30 = false := ⟨rfl, rfl⟩

/-- C4 counterexample: the line after a date marker is taken as the
description verbatim, so a block whose description line is empty is still
emitted, with `description = ""` — the claim's "non-empty description"
conjunct is false. -/
theorem c4_counterexample :
    importParse ["12/26(月)", "", "-450"]
      = .ok [{ date := ⟨2025, 12, 26⟩, description := "", amount := -450,
               source := "Unknown", category := "Uncategorized" }] := rfl

/-- C4 (amended): every transaction the importer's parser emits carries a
valid calendar date (the date was checked by `datetime`; its amount is a
number by construction of `parse_amount`); the description, however, is
whatever line follows the marker and may be empty. -/
theorem c4_ok_dates_valid (lines : List String) (txs : List TxI)
    (h : importParse lines = .ok txs) :
    ∀ tx ∈ txs, validDate tx.date.year tx.date.month tx.date.day = true :=
  loopI_valid lines (lines.length + 1) 0 2025 [] txs
    (fun tx htx => absurd htx (List.not_mem_nil tx)) h

/-- C4 witness: the scenario-1 run emits only records with valid dates. -/
theorem c4_ok_dates_valid_witness : validDate 2025 12 26 = true :=
  c4_ok_dates_valid
    ["2025/12/1 - 2025/12/31", "12/26(金)", "Coffee Shop", "-450", "Bank A\t外食\tCafe"]
    [sampleA] rfl sampleA (List.mem_singleton.mpr rfl)

/-- C5 counterexample: `parse_mf.py` starts with `current_year = None`
and its marker branch requires a year, so a block whose marker precedes
every range header is dropped, not resolved with a default year — the
claim is false for this parser, which emits nothing here. -/
theorem c5_counterexample :
    parseMF ["12/26(金)", "Coffee Shop", "-450"] = [] := by decide

/-- C5 (amended): only the importer (`import_mf.py`, default
`current_year = 2025`) resolves a marker seen before any range header
with the fixed default year and emits the block; the CSV exporter's
parser (`parse_mf.py`) has no default year and emits nothing as long as
no range header has been seen. -/
theorem c5_header_default_year :
    (∀ lines : List String, (∀ l ∈ lines, headerMF l = false) → parseMF lines = [])
    ∧ importParse ["12/26(金)", "Coffee Shop", "-450"]
        = .ok [{ date := ⟨2025, 12, 26⟩, description := "Coffee Shop", amount := -450,
                 source := "Unknown", category := "Uncategorized" }] := by
  refine ⟨?_, rfl⟩
  intro lines h
  exact loopMF_no_year lines h (lines.length + 1) 0 []

/-- C5 witness: a headerless input yields no records from `parse_mf`. -/
theorem c5_header_default_year_witness : parseMF ["hello", "world"] = [] :=
  c5_header_default_year.1 ["hello", "world"] (by decide)

/-- C6 counterexample: with two multi-field detail lines
`A<TAB>X` and `B<TAB>Y` the emitted record carries source `B` and
category `Y` — the `for` loop at `import_mf.py` lines 77–86 has no
`break`, so the LAST multi-field line wins, not the first as claimed. -/
theorem c6_counterexample :
    importParse ["12/26(月)", "Desc", "-100", "A\tX", "B\tY"]
      = .ok [{ date := ⟨2025, 12, 26⟩, description := "Desc", amount := -100,
               source := "B", category := "Y" }] := rfl

/-- C6 (amended): source and category come from the LAST detail line with
two or more tab-separated fields (field 0 stripped as source, field 1
stripped as category, a non-empty stripped field 2 appended as
" / " subcategory), provided the resulting category is not the literal
"Uncategorized" sentinel (in which case a transfer marker could trigger
the transfer rescue instead). -/
theorem c6_last_multifield_wins (details : List String) (d : String)
    (h : (details.filter isMultiField).getLast? = some d)
    (h2 : (extractHeur d).category ≠ "Uncategorized") :
    heurImport details = extractHeur d := by
  have hb := foldl_heurStep_last details ⟨"Unknown", "Uncategorized"⟩ d h
  unfold heurImport
  dsimp only
  rw [hb, if_neg (fun hc => h2 hc.2)]

/-- C6 witness: on the two multi-field lines of the counterexample the
heuristics yield exactly the second line's fields. -/
theorem c6_last_multifield_wins_witness :
    heurImport ["A\tX", "B\tY"] = extractHeur "B\tY" :=
  c6_last_multifield_wins ["A\tX", "B\tY"] "B\tY" (by decide) (by decide)

/-- C7 counterexample: `parse_mf.py` takes a bare-number single-field
detail line as the source (its bare-number guard only applies to the
optional second source line), so `1234` becomes the record's source;
and `import_mf.py` never uses a single-field detail line as source at
all outside the transfer rescue, leaving `Unknown` where the claim says
`Bank A` — both directions of the claim fail. -/
theorem c7_counterexample :
    parseMF ["2025/12/1 - 2025/12/31", "12/26(金)", "Desc", "-100", "1234"]
      = [⟨"2025-12-26", "Desc", -100, "未分類", "1234", "JPY"⟩]
    ∧ importParse ["12/26(月)", "Desc", "-100", "Bank A"]
        = .ok [{ date := ⟨2025, 12, 26⟩, description := "Desc", amount := -100,
                 source := "Unknown", category := "Uncategorized" }] := ⟨rfl, rfl⟩

/-- C7 (amended): in `parse_mf.py`, when the first detail line after the
optional transfer marker is single-field and is not a marker/header
pattern, the source is that line (field 0 of its tab split, i.e. the line
itself) — with no bare-number guard — or the following continuation line
when that one passes the second-line checks. -/
theorem c7_single_field_is_source (lines : List String) (k : Nat)
    (hk : k < lines.length)
    (hnt : ¬ lines.getD k "" = "(振替)")
    (h1 : (splitTab (lines.getD k "")).length = 1)
    (hm : markerMF (lines.getD k "") = none)
    (hh : headerMF (lines.getD k "") = false) :
    (detailsMF lines k).source = (splitTab (lines.getD k "")).getD 0 ""
    ∨ (detailsMF lines k).source = lines.getD (k + 1) "" := by
  unfold detailsMF
  rw [if_neg (fun hc => hnt hc.2)]
  unfold detailsMFCore
  rw [if_pos hk]
  rw [if_neg (by omega : ¬ 3 ≤ (splitTab (lines.getD k "")).length)]
  rw [if_pos ⟨h1, by rw [hm]; rfl, hh⟩]
  by_cases hsec : k + 1 < lines.length
      ∧ (markerMF (lines.getD (k + 1) "")).isNone = true
      ∧ headerMF (lines.getD (k + 1) "") = false
  · rw [if_pos hsec]
    by_cases hp : startsDash (lines.getD (k + 1) "") = false
        ∧ strippedIsDigit (lines.getD (k + 1) "") = false
    · rw [if_pos hp]
      right
      rfl
    · rw [if_neg hp]
      left
      rfl
  · rw [if_neg hsec]
    left
    rfl

/-- C7 witness: the bare-number line `1234` is taken as the source. -/
theorem c7_single_field_is_source_witness :
    (detailsMF ["1234"] 0).source = (splitTab (["1234"].getD 0 "")).getD 0 ""
    ∨ (detailsMF ["1234"] 0).source = ["1234"].getD 1 "" :=
  c7_single_field_is_source ["1234"] 0 (by decide) (by decide) (by decide)
    (by decide) (by decide)

/-- C8: a block whose amount line fails the numeric checks yields no
record and only advances the cursor by one line (both for the shape-regex
rejection and for the `float` `ValueError`), so parsing terminates and
resumes at the following block; on the six-line scenario-3 input exactly
one record is emitted — the Lunch record with amount −800. -/
theorem c8_malformed_amount_skips :
    (∀ (lines : List String) (fuel i year : Nat) (acc : List TxI) (m d : Nat),
        i < lines.length →
        headerImport (lines.getD i "") = none →
        markerImport (lines.getD i "") = some (m, d) →
        validDate year m d = true →
        ¬ lines.length ≤ i + 2 →
        amountShape (removeChar '円' (lines.getD (i + 2) "")) = false →
        loopI lines (fuel + 1) i year acc = loopI lines fuel (i + 1) year acc)
    ∧ (∀ (lines : List String) (fuel i year : Nat) (acc : List TxI) (m d : Nat),
        i < lines.length →
        headerImport (lines.getD i "") = none →
        markerImport (lines.getD i "") = some (m, d) →
        validDate year m d = true →
        ¬ lines.length ≤ i + 2 →
        amountShape (removeChar '円' (lines.getD (i + 2) "")) = true →
        parse_amount (lines.getD (i + 2) "") = none →
        loopI lines (fuel + 1) i year acc = loopI lines fuel (i + 1) year acc)
    ∧ importParse ["12/28(日)", "Mystery Charge", "not-a-number", "12/29(月)", "Lunch", "-800"]
        = .ok [sampleB] := by
  refine ⟨?_, ?_, rfl⟩
  · intro lines fuel i year acc m d hi hh hm hv h2 hs
    rw [loopI]
    simp only [if_pos hi]
    rw [hh]
    dsimp only
    rw [hm]
    dsimp only
    rw [if_pos hv, if_neg h2, if_neg (by rw [hs]; exact Bool.false_ne_true)]
  · intro lines fuel i year acc m d hi hh hm hv h2 hs hp
    rw [loopI]
    simp only [if_pos hi]
    rw [hh]
    dsimp only
    rw [hm]
    dsimp only
    rw [if_pos hv, if_neg h2, if_pos hs, hp]

/-- C8 witness: on the scenario-3 input the malformed `not-a-number`
block advances the cursor from line 0 to line 1 without emitting. -/
theorem c8_malformed_amount_skips_witness :
    loopI ["12/28(日)", "Mystery Charge", "not-a-number", "12/29(月)", "Lunch", "-800"]
        7 0 2025 []
      = loopI ["12/28(日)", "Mystery Charge", "not-a-number", "12/29(月)", "Lunch", "-800"]
        6 1 2025 [] :=
  c8_malformed_amount_skips.1
    ["12/28(日)", "Mystery Charge", "not-a-number", "12/29(月)", "Lunch", "-800"]
    6 0 2025 [] 12 28 (by decide) (by decide) (by decide) (by decide) (by decide) (by decide)

/-- C9: on the concrete five-line scenario-1 input both parsers emit
exactly one record with date 2025-12-26, description "Coffee Shop",
amount −450, category "外食 / Cafe", source "Bank A", currency "JPY". -/
theorem c9_scenario1_record :
    importParse ["2025/12/1 - 2025/12/31", "12/26(金)", "Coffee Shop", "-450", "Bank A\t外食\tCafe"]
      = .ok [{ date := ⟨2025, 12, 26⟩, description := "Coffee Shop", amount := -450,
               source := "Bank A", category := "外食 / Cafe" }]
    ∧ parseMF ["2025/12/1 - 2025/12/31", "12/26(金)", "Coffee Shop", "-450", "Bank A\t外食\tCafe"]
      = [⟨"2025-12-26", "Coffee Shop", -450, "外食 / Cafe", "Bank A", "JPY"⟩] := ⟨rfl, rfl⟩

end Expense
